import Mathlib

/-!
Verification development for the Snug-O-Nauts RAG pipeline
(`src/rag_pipeline.py`), focused on `answer_question`: tokenization,
n-gram extraction, candidate scoring, candidate selection, and answer
composition.  Text is modelled at the character level (`List Char`, the
ASCII fragment that the corpus and the Python string operations act on),
scores as exact rationals `ℚ` (CPython floats are replaced by exact
arithmetic; every constant in the source is a short decimal).
-/

/-! ## Character and string utilities (CPython primitives used by the source) -/

/-- ASCII case folding, as CPython `str.lower` acts on ASCII text. -/
def lowerChar (c : Char) : Char :=
  if c.toNat ≥ 65 ∧ c.toNat ≤ 90 then Char.ofNat (c.toNat + 32) else c

/-- CPython `text.lower()` on the ASCII fragment. -/
def lowerStr (s : List Char) : List Char := s.map lowerChar

/-- CPython `str.replace(old, new)` for single-character `old`/`new`. -/
def replaceChar (old new : Char) (s : List Char) : List Char :=
  s.map fun c => if c = old then new else c

/-- CPython `str.replace("**", "")`: delete non-overlapping occurrences of
the two-character markdown bold marker, scanning left to right. -/
def removeBold : List Char → List Char
  | '*' :: '*' :: rest => removeBold rest
  | c :: rest => c :: removeBold rest
  | [] => []

/-- Whitespace characters recognized by CPython `str.split()` (ASCII). -/
def isPySpace (c : Char) : Bool :=
  c == ' ' || c == '\t' || c == '\n' || c == '\x0b' || c == '\x0c' || c == '\r'

/-- Accumulator-passing word splitter: `splitWordsAux p acc s` splits `s` at
characters satisfying `p`, discarding empty fields, with `acc` the
(reversed) word in progress. -/
def splitWordsAux (p : Char → Bool) (acc : List Char) : List Char → List (List Char)
  | [] => if acc.isEmpty then [] else [acc.reverse]
  | c :: cs =>
    if p c then
      if acc.isEmpty then splitWordsAux p [] cs
      else acc.reverse :: splitWordsAux p [] cs
    else splitWordsAux p (c :: acc) cs

/-- Split a character list into maximal nonempty runs of characters not
satisfying `p`; with `p := isPySpace` this is CPython `str.split()`. -/
def splitWords (p : Char → Bool) (s : List Char) : List (List Char) :=
  splitWordsAux p [] s

/-- CPython `str.strip(chars)`: drop the characters of `cut` from both ends. -/
def pyStrip (cut : List Char) (w : List Char) : List Char :=
  ((w.dropWhile (fun c => cut.contains c)).reverse.dropWhile
    (fun c => cut.contains c)).reverse

/-- The punctuation strip of the tokenizer: `word.strip('.,;:?!')`. -/
def stripPunct (w : List Char) : List Char :=
  pyStrip ['.', ',', ';', ':', '?', '!'] w

/-- CPython `str.isnumeric()` on the ASCII fragment: nonempty and all digits. -/
def isNumericWord (w : List Char) : Bool := !w.isEmpty && w.all Char.isDigit

/-- The tokenizer's keep condition: `if word and len(word) > 1 and not
word.isnumeric()`. -/
def keepToken (w : List Char) : Bool :=
  !w.isEmpty && decide (w.length > 1) && !isNumericWord w

/-- Does `needle` occur at the head of `hay`? (CPython `str.startswith`.) -/
def startsWithChars : List Char → List Char → Bool
  | [], _ => true
  | _ :: _, [] => false
  | a :: as, b :: bs => a == b && startsWithChars as bs

/-- CPython substring membership `needle in hay`. -/
def containsChars (needle : List Char) : List Char → Bool
  | [] => startsWithChars needle []
  | c :: rest => startsWithChars needle (c :: rest) || containsChars needle rest

/-- CPython `' '.join(words)` at the character level. -/
def joinSpace : List (List Char) → List Char
  | [] => []
  | [w] => w
  | w :: ws => w ++ ' ' :: joinSpace ws

/-! ## Tokenizer (`get_normalized_tokens`, rag_pipeline.py lines 113-121) -/

/-- Embedding of `get_normalized_tokens`.  Source order: replace `'**'` by
`''`; replace `'"'` by `'"'` twice (both replacements are written with the
straight double quote on both sides in the source, so they are identity
operations); lower; replace `'('` and `')'` by spaces; `split()`; strip
`'.,;:?!'` from each word; keep words that are nonempty, longer than one
character, and not numeric; collect into a set. -/
def get_normalized_tokens (text : String) : Finset String :=
  (((splitWords isPySpace
        (replaceChar ')' ' ' (replaceChar '(' ' '
          (lowerStr (replaceChar '"' '"' (replaceChar '"' '"'
            (removeBold text.data))))))).map stripPunct).filter keepToken
    |>.map (fun w => String.mk w)).toFinset

/-! ## N-gram extractor (`get_ngrams`, rag_pipeline.py lines 128-130) -/

/-- Embedding of `get_ngrams(text, n)`: lowercase, `split()`, and collect
`' '.join(words[i:i+n])` for `i in range(len(words)-n+1)` into a set; when
the text has fewer than `n` words the Python range is empty. -/
def get_ngrams (text : String) (n : ℕ) : Finset String :=
  let words := splitWords isPySpace (lowerStr text.data)
  if words.length < n then ∅
  else ((List.range (words.length - n + 1)).map
    (fun i => String.mk (joinSpace ((words.drop i).take n)))).toFinset

/-! ## Candidate scorer (rag_pipeline.py lines 135-175) -/

/-- One retrieved passage: its `page_content` and the `"source"` entry of its
metadata (`none` when the metadata lacks a source id). -/
structure Doc where
  page_content : String
  source : Option String
deriving DecidableEq

/-- Per-candidate score record, mirroring the dict built at lines 168-175. -/
structure ScoreRec where
  doc : Doc
  score : ℚ
  token_overlap : ℚ
  phrase_score : ℚ
  term_score : ℚ
  completeness : ℚ
deriving DecidableEq

/-- Shared shape of the guarded set-overlap ratios in the scorer:
`len(qs & ds) / len(qs) if qs else 0`. -/
def matchRatio (qs ds : Finset String) : ℚ :=
  if qs = ∅ then 0 else ((qs ∩ ds).card : ℚ) / (qs.card : ℚ)

/-- The lowered document content `doc_content = doc.page_content.lower()`. -/
def docContentLower (doc : Doc) : List Char := lowerStr doc.page_content.data

/-- Token overlap score (line 141-142): `len(shared_tokens) /
len(question_tokens) if question_tokens else 0` with `shared_tokens =
question_tokens & doc_tokens`. -/
def tokenOverlapOf (question : String) (doc : Doc) : ℚ :=
  matchRatio (get_normalized_tokens question) (get_normalized_tokens doc.page_content)

/-- Bigram match ratio (line 147). -/
def bigramRatioOf (question : String) (doc : Doc) : ℚ :=
  matchRatio (get_ngrams question 2) (get_ngrams (String.mk (docContentLower doc)) 2)

/-- Trigram match ratio (line 148). -/
def trigramRatioOf (question : String) (doc : Doc) : ℚ :=
  matchRatio (get_ngrams question 3) (get_ngrams (String.mk (docContentLower doc)) 3)

/-- Phrase score (line 149): `(bigram_matches + trigram_matches) / 2`. -/
def phraseScoreOf (question : String) (doc : Doc) : ℚ :=
  (bigramRatioOf question doc + trigramRatioOf question doc) / 2

/-- Key terms of the question (line 152): `set(word.lower() for word in
question.split() if len(word) > 3)`. -/
def key_terms (question : String) : Finset String :=
  (((splitWords isPySpace question.data).filter (fun w => decide (w.length > 3))).map
    (fun w => String.mk (lowerStr w))).toFinset

/-- Term score (lines 153-154): the fraction of key terms occurring as a
substring of the lowered content, `0` when there are no key terms. -/
def termScoreOf (question : String) (doc : Doc) : ℚ :=
  if key_terms question = ∅ then 0
  else (((key_terms question).filter
      (fun t => containsChars t.data (docContentLower doc))).card : ℚ) /
    ((key_terms question).card : ℚ)

/-- Completeness (line 157): `min(len(doc_tokens) / 100, 1.0)`. -/
def completenessOf (doc : Doc) : ℚ :=
  min (((get_normalized_tokens doc.page_content).card : ℚ) / 100) 1

/-- Embedding of the scoring loop body (lines 135-175) for one document. -/
def scoreDoc (question : String) (doc : Doc) : ScoreRec :=
  { doc := doc
    score := tokenOverlapOf question doc * 0.35 + phraseScoreOf question doc * 0.25 +
      termScoreOf question doc * 0.20 + completenessOf doc * 0.20
    token_overlap := tokenOverlapOf question doc
    phrase_score := phraseScoreOf question doc
    term_score := termScoreOf question doc
    completeness := completenessOf doc }

/-! ## Candidate selector (rag_pipeline.py lines 177-208) -/

/-- Insert into a list already sorted descending by `score`, placing the new
element before the first strictly smaller score (so an element inserted
from the left keeps its place among equal scores). -/
def insertDesc (x : ScoreRec) : List ScoreRec → List ScoreRec
  | [] => [x]
  | y :: ys => if y.score ≤ x.score then x :: y :: ys else y :: insertDesc x ys

/-- Embedding of `scores.sort(key=lambda x: x['score'], reverse=True)`
(line 178): the stable descending sort by `score`. -/
def sortDesc : List ScoreRec → List ScoreRec
  | [] => []
  | x :: xs => insertDesc x (sortDesc xs)

/-- The strong-match test of line 189:
`s['token_overlap'] >= 0.4 or s['phrase_score'] >= 0.5`. -/
def isStrong (s : ScoreRec) : Prop :=
  s.token_overlap ≥ 0.4 ∨ s.phrase_score ≥ 0.5

instance (s : ScoreRec) : Decidable (isStrong s) := by
  unfold isStrong; infer_instance

/-- The re-ranking key of line 196:
`x['token_overlap'] * 0.6 + x['phrase_score'] * 0.4`. -/
def balanceKey (s : ScoreRec) : ℚ :=
  s.token_overlap * 0.6 + s.phrase_score * 0.4

/-- CPython `max(x :: xs, key=f)`: fold keeping the current maximum,
replacing it only on a strictly larger key, so ties keep the earliest
element. -/
def pyMax (f : ScoreRec → ℚ) (x : ScoreRec) : List ScoreRec → ScoreRec
  | [] => x
  | c :: cs => pyMax f (if f x < f c then c else x) cs

/-- The escalation test of lines 202-205: the candidate is significantly
better than the current best in any of the three ways. -/
def escalationCond (c best : ScoreRec) : Prop :=
  c.token_overlap > best.token_overlap * 1.4 ∨
  c.phrase_score > best.phrase_score * 1.3 ∨
  (c.score > best.score * 0.9 ∧ c.completeness > best.completeness * 1.2)

instance (c best : ScoreRec) : Decidable (escalationCond c best) := by
  unfold escalationCond; infer_instance

/-- Embedding of the selection logic (lines 181-206) applied to the sorted
score list: `best_score = scores[0]`; when more than one candidate exists,
take the top three as the pool, filter the strong matches, and either take
the `max` of the strong matches under `balanceKey` or run the escalation
loop over `candidates[1:]`.  `none` only for an empty input (the source
indexes `scores[0]`, which the empty-retrieval guard makes unreachable). -/
def selectFromSorted : List ScoreRec → Option ScoreRec
  | [] => none
  | best :: rest =>
    if rest.isEmpty then some best
    else
      match ((best :: rest).take 3).filter (fun s => decide (isStrong s)) with
      | s :: ss => some (pyMax balanceKey s ss)
      | [] => some ((((best :: rest).take 3).drop 1).foldl
          (fun b c => if escalationCond c b then c else b) best)

/-- The selector on raw (retrieval-ordered) score records: sort, then pick. -/
def select (scores : List ScoreRec) : Option ScoreRec :=
  selectFromSorted (sortDesc scores)

/-! ## Answer composer and guardrail (rag_pipeline.py lines 110-233) -/

/-- The refusal literal of line 111. -/
def REFUSAL : String :=
  "I can only answer questions about our company policies and procedures."

/-- The sentinel of line 212 for metadata without a `"source"` entry. -/
def UNKNOWN_SOURCE : String := "Unknown Source"

/-- The literal head of the citation footer of line 230. -/
def CITATION_HEADER : String := "\n\n**Sources:** "

/-- `ANSWER_TEMPLATE` (lines 20-40) formatted with a context and question,
as `ChatPromptTemplate.from_template(...).format_prompt(...)` fills it. -/
def ANSWER_TEMPLATE_filled (context question : String) : String :=
  "\nYou are an expert Q&A system for Snug-O-Nauts company policies. Your goal is to answer the user\x27s question based **ONLY** on the provided context.\n\n**RULE 1: EXACT MATCH PRIORITY.** First, look for exact phrases or statements in the context that directly answer the question. Prefer using these exact matches in your answer, preserving the original wording where possible.\n\n**RULE 2: COMPLETENESS & PRECISION.** If no exact match exists, ensure your answer includes ALL key details from the context that are relevant to the question. Be precise and specific, using the same terminology as found in the source document.\n\n**RULE 3: SINGLE SOURCE FIDELITY.** Use information from exactly ONE source document. If you cannot find a complete answer in the provided context, state \x22I need more context to fully answer this question.\x22\n\n**RULE 4: NO INFERENCE.** Do not make assumptions or combine information from different sections. Stick strictly to what is explicitly stated in the context.\n\n\nLimit your output length to **two sentences or a concise list**.\n\n--- CONTEXT ---\n"
    ++ context ++ "\n---\n\n--- QUESTION ---\n" ++ question ++ "\n"

/-- `PROMPT_TEMPLATE` (lines 46-61) formatted with a context and question. -/
def PROMPT_TEMPLATE_filled (context question : String) : String :=
  "\nYou are an expert Q&A system for Snug-O-Nauts company policies. Your goal is to answer the user\x27s question based **ONLY** on the provided context.\n\n**RULE 1: FAITHFULNESS & DISAMBIGUATION.** Answer the user\x27s question concisely, directly, and using ONLY the provided text in the \x27CONTEXT\x27 section. **DO NOT invent information, combine details from different roles, mix protocols, or assume numerical ranges.** If the context does not fully support the answer, do not guess.\n**RULE 2: CITATION.** You MUST cite all sources used at the end of the answer. A citation is only valid if the document directly supports a fact used in the answer. Do not include irrelevant documents in the citations.\n**RULE 3: GUARDRAIL.** If the CONTEXT is empty or does not contain the answer, you MUST respond with \x22I can only answer questions about our company policies and procedures.\x22\n\nLimit your output length to **two sentences or a concise list**.\n\n--- CONTEXT ---\n"
    ++ context ++ "\n---\n\n--- QUESTION ---\n" ++ question ++ "\n"

/-- Template choice of lines 216-219: the answer template when the context
is longer than 100 characters, the guardrail-aware template otherwise. -/
def build_prompt (context_text question : String) : String :=
  if context_text.length > 100 then ANSWER_TEMPLATE_filled context_text question
  else PROMPT_TEMPLATE_filled context_text question

/-- Lines 211-231: generate from the chosen document\x27s content and append
the citation footer, with the `"Unknown Source"` fallback of line 212. -/
def compose_answer (best : ScoreRec) (gen : String → String) (question : String) : String :=
  gen (build_prompt best.doc.page_content question) ++ CITATION_HEADER ++
    best.doc.source.getD UNKNOWN_SOURCE

/-- Embedding of `answer_question` (lines 97-233).  The two external
collaborators are injected: `results` is what
`compression_retriever.get_relevant_documents(question)` returned and
`gen` is the generation call (`llm.invoke` followed by `.content`).  The
result pairs the returned string with the number of generation calls made,
so that the guardrail property "generation is never invoked" is a statement
about the embedding.  The `none` branch of the inner match is unreachable:
`select` of a nonempty list is always `some` (`select_cons_eq_some`). -/
def answer_question (results : List Doc) (gen : String → String) (question : String) :
    String × ℕ :=
  match results with
  | [] => (REFUSAL, 0)
  | d :: ds =>
    match select ((d :: ds).map (scoreDoc question)) with
    | some best => (compose_answer best gen question, 1)
    | none => (REFUSAL, 0)

/-! ## The Python call surface of `answer_question` -/

/-- Outcome of a CPython call: a value, or an uncaught `TypeError`. -/
inductive PyCallResult where
  | ok (value : String × ℕ)
  | typeError
deriving DecidableEq

/-- The Python call `answer_question(question, **kwargs)` with keyword
argument names `kwargs`, as the ablation driver issues it
(`ablation_study.py` line 9).  The source signature
`def answer_question(question: str)` (line 97) declares exactly one
parameter, and the positional argument binds it, so CPython raises
`TypeError` for every keyword argument: an unexpected name, or a duplicate
binding of `question`.  Hence the call succeeds exactly when `kwargs` is
empty. -/
def answer_question_call (results : List Doc) (gen : String → String)
    (question : String) (kwargs : List String) : PyCallResult :=
  if kwargs.isEmpty then .ok (answer_question results gen question) else .typeError

/-! ## Specification-side definitions (for refutation / refinement) -/

/-- Separator set named by C8: whitespace and the parenthesis characters. -/
def isSeparator (c : Char) : Bool := isPySpace c || c == '(' || c == ')'

/-- The single-character effect of the source\x27s two parenthesis
replacements, used to relate them to splitting on `isSeparator`. -/
def parenToSpace (c : Char) : Char :=
  if c = ')' then ' ' else if c = '(' then ' ' else c

/-- The quote characters C8 calls "curly/straight quote variants": the
straight double quote and the two curly double quotes U+201C and U+201D. -/
def quoteVariants : List Char := ['"', Char.ofNat 8220, Char.ofNat 8221]

/-- The tokenizer exactly as claim C8 states it: lowercase, strip markdown
bold markers and the curly/straight quote variants, split on whitespace
and parentheses, strip leading/trailing `.,;:?!`, and discard empty,
single-character, and all-digit tokens. -/
def claimTokenize (text : String) : Finset String :=
  (((splitWords isSeparator
        ((removeBold (lowerStr text.data)).filter
          (fun c => !(quoteVariants.contains c)))).map stripPunct).filter keepToken
    |>.map (fun w => String.mk w)).toFinset

/-- The tokenizer as amended: identical to C8 except that quote characters
are not stripped (the source\x27s two quote replacements substitute the
straight double quote for itself, leaving every quote character in
place). -/
def amendedTokenize (text : String) : Finset String :=
  (((splitWords isSeparator (lowerStr (removeBold text.data))).map stripPunct).filter
    keepToken |>.map (fun w => String.mk w)).toFinset

/-- The escalation policy exactly as claim C2 words it: a single
left-to-right sweep over the pool from index 1 onward, replacing the
current best whenever the candidate passes the escalation test, returning
the best standing after the sweep. -/
def escalationSweep : List ScoreRec → Option ScoreRec
  | [] => none
  | best :: rest =>
    some (rest.foldl (fun b c => if escalationCond c b then c else b) best)

/-! ## Sample data for concrete witnesses -/

/-- A sample retrieved passage. -/
def sampleDocA : Doc :=
  ⟨"PTO accrues at 1.25 days per month for full-time staff.", some "pto_policy.md"⟩

/-- Another sample retrieved passage. -/
def sampleDocB : Doc :=
  ⟨"Remote work requires manager approval.", some "remote_policy.md"⟩

/-- Strong-match score record (token overlap 0.5, phrase score 0.6), the
first candidate of the scenario in spec §8. -/
def strongRec1 : ScoreRec := ⟨sampleDocA, 0.5, 0.5, 0.6, 0.3, 0.2⟩

/-- Strong-match score record (token overlap 0.9, phrase score 0.1), the
second candidate of the scenario in spec §8. -/
def strongRec2 : ScoreRec := ⟨sampleDocB, 0.45, 0.9, 0.1, 0.3, 0.2⟩

/-- A score record that is not a strong match (0.3 < 0.4, 0.2 < 0.5). -/
def weakRec1 : ScoreRec := ⟨sampleDocA, 0.3, 0.3, 0.2, 0.1, 0.5⟩

/-- Another score record that is not a strong match (0.35 < 0.4, 0.1 < 0.5). -/
def weakRec2 : ScoreRec := ⟨sampleDocB, 0.28, 0.35, 0.1, 0.1, 0.9⟩

/-! ## Helper lemmas -/

lemma length_insertDesc (x : ScoreRec) (l : List ScoreRec) :
    (insertDesc x l).length = l.length + 1 := by
  induction l with
  | nil => rfl
  | cons y ys ih =>
    show (if y.score ≤ x.score then x :: y :: ys else y :: insertDesc x ys).length = _
    split
    · simp
    · simp [ih]

lemma length_sortDesc (l : List ScoreRec) : (sortDesc l).length = l.length := by
  induction l with
  | nil => rfl
  | cons x xs ih =>
    show (insertDesc x (sortDesc xs)).length = xs.length + 1
    rw [length_insertDesc, ih]

lemma insertDesc_ne_nil (x : ScoreRec) (l : List ScoreRec) : insertDesc x l ≠ [] := by
  cases l with
  | nil => simp [insertDesc]
  | cons y ys =>
    show (if y.score ≤ x.score then x :: y :: ys else y :: insertDesc x ys) ≠ []
    split <;> simp

lemma pyMax_mem (f : ScoreRec → ℚ) (x : ScoreRec) (xs : List ScoreRec) :
    pyMax f x xs ∈ x :: xs := by
  induction xs generalizing x with
  | nil => simp [pyMax]
  | cons c cs ih =>
    show pyMax f (if f x < f c then c else x) cs ∈ x :: c :: cs
    rcases List.mem_cons.1 (ih (if f x < f c then c else x)) with h1 | h1
    · rw [h1]
      split
      · simp
      · simp
    · simp [h1]

lemma le_pyMax (f : ScoreRec → ℚ) (x : ScoreRec) (xs : List ScoreRec) :
    ∀ z ∈ x :: xs, f z ≤ f (pyMax f x xs) := by
  induction xs generalizing x with
  | nil =>
    intro z hz
    rw [List.mem_singleton] at hz
    subst hz
    exact le_refl _
  | cons c cs ih =>
    intro z hz
    show f z ≤ f (pyMax f (if f x < f c then c else x) cs)
    have hx : f x ≤ f (if f x < f c then c else x) := by
      split
      · next h => exact le_of_lt h
      · exact le_refl _
    have hc : f c ≤ f (if f x < f c then c else x) := by
      split
      · exact le_refl _
      · next h => exact le_of_not_lt h
    have htop := ih (if f x < f c then c else x)
    rcases List.mem_cons.1 hz with rfl | hz1
    · exact le_trans hx (htop _ (List.mem_cons_self _ _))
    · rcases List.mem_cons.1 hz1 with rfl | hz2
      · exact le_trans hc (htop _ (List.mem_cons_self _ _))
      · exact htop z (List.mem_cons_of_mem _ hz2)

lemma take3_cons_cons (b r : ScoreRec) (rs : List ScoreRec) :
    (b :: r :: rs).take 3 = b :: r :: rs.take 1 := rfl

lemma selectFromSorted_cons_isSome (b : ScoreRec) (rest : List ScoreRec) :
    (selectFromSorted (b :: rest)).isSome := by
  by_cases h : rest.isEmpty
  · simp [selectFromSorted, h]
  · rcases hf : (b :: rest.take 2).filter (fun s => decide (isStrong s)) with _ | ⟨s, ss⟩
    · simp [selectFromSorted, h, hf]
    · simp [selectFromSorted, h, hf]

lemma select_cons_eq_some (x : ScoreRec) (xs : List ScoreRec) :
    ∃ b, select (x :: xs) = some b := by
  rw [← Option.isSome_iff_exists]
  show (selectFromSorted (sortDesc (x :: xs))).isSome
  rcases hh : sortDesc (x :: xs) with _ | ⟨h0, t0⟩
  · exact absurd hh (insertDesc_ne_nil x (sortDesc xs))
  · exact selectFromSorted_cons_isSome h0 t0

/-! ## Claim C1 -/

/-- C1: for every scored candidate sequence with at least two candidates,
after sorting all candidates descending by final score, if the pool of the
top `min(3, n)` candidates contains a candidate with `tokenOverlap ≥ 0.4`
or `phraseScore ≥ 0.5`, then the selector returns a member of those strong
matches that maximizes `0.6*tokenOverlap + 0.4*phraseScore`. -/
theorem selector_strong_match (scores : List ScoreRec) (h2 : 2 ≤ scores.length)
    (hstrong : ∃ s ∈ (sortDesc scores).take 3, isStrong s) :
    ∃ b, select scores = some b ∧
      b ∈ ((sortDesc scores).take 3).filter (fun s => decide (isStrong s)) ∧
      ∀ s ∈ ((sortDesc scores).take 3).filter (fun s => decide (isStrong s)),
        balanceKey s ≤ balanceKey b := by
  have hl : 2 ≤ (sortDesc scores).length := by rw [length_sortDesc]; exact h2
  rcases hsd : sortDesc scores with _ | ⟨b0, _ | ⟨r0, rs0⟩⟩
  · rw [hsd] at hl; simp at hl
  · rw [hsd] at hl; simp at hl
  · rw [hsd] at hstrong
    unfold select
    rw [hsd]
    rw [take3_cons_cons] at hstrong ⊢
    rcases hf : (b0 :: r0 :: rs0.take 1).filter (fun s => decide (isStrong s)) with _ | ⟨s, ss⟩
    · exfalso
      obtain ⟨t, htmem, ht⟩ := hstrong
      have hmemf : t ∈ (b0 :: r0 :: rs0.take 1).filter (fun s => decide (isStrong s)) :=
        List.mem_filter.2 ⟨htmem, by simpa using ht⟩
      rw [hf] at hmemf
      exact absurd hmemf (List.not_mem_nil t)
    · refine ⟨pyMax balanceKey s ss, ?_, ?_, ?_⟩
      · simp [selectFromSorted, hf]
      · exact pyMax_mem balanceKey s ss
      · intro t ht
        exact le_pyMax balanceKey s ss t ht

/-- Witness for C1 at the concrete scenario of spec §8: two strong
candidates with token overlaps 0.5 and 0.9 and phrase scores 0.6 and 0.1. -/
theorem selector_strong_match_witness :
    ∃ b, select [strongRec1, strongRec2] = some b ∧
      b ∈ ((sortDesc [strongRec1, strongRec2]).take 3).filter (fun s => decide (isStrong s)) ∧
      ∀ s ∈ ((sortDesc [strongRec1, strongRec2]).take 3).filter (fun s => decide (isStrong s)),
        balanceKey s ≤ balanceKey b := by
  have hsd : sortDesc [strongRec1, strongRec2] = [strongRec1, strongRec2] := by
    norm_num [sortDesc, insertDesc, strongRec1, strongRec2]
  exact selector_strong_match [strongRec1, strongRec2] (by norm_num)
    ⟨strongRec1, by rw [hsd]; simp, Or.inl (by norm_num [strongRec1])⟩

/-! ## Claim C2 -/

/-- C2: for every scored candidate sequence with at least two candidates
whose top-`min(3, n)` pool (after the descending sort) contains no strong
match, the selector performs the single left-to-right escalation sweep
over the pool from index 1 onward and returns the best standing after the
sweep. -/
theorem selector_escalation (scores : List ScoreRec) (h2 : 2 ≤ scores.length)
    (hnone : ((sortDesc scores).take 3).filter (fun s => decide (isStrong s)) = []) :
    select scores = escalationSweep ((sortDesc scores).take 3) := by
  have hl : 2 ≤ (sortDesc scores).length := by rw [length_sortDesc]; exact h2
  rcases hsd : sortDesc scores with _ | ⟨b0, _ | ⟨r0, rs0⟩⟩
  · rw [hsd] at hl; simp at hl
  · rw [hsd] at hl; simp at hl
  · rw [hsd] at hnone
    unfold select
    rw [hsd]
    rw [take3_cons_cons] at hnone ⊢
    simp [selectFromSorted, hnone, escalationSweep]

/-- Witness for C2 at a concrete pool with no strong match. -/
theorem selector_escalation_witness :
    select [weakRec1, weakRec2] = escalationSweep ((sortDesc [weakRec1, weakRec2]).take 3) := by
  refine selector_escalation [weakRec1, weakRec2] (by norm_num) ?_
  have hsd : sortDesc [weakRec1, weakRec2] = [weakRec1, weakRec2] := by
    norm_num [sortDesc, insertDesc, weakRec1, weakRec2]
  rw [hsd]
  norm_num [List.filter_cons, isStrong, weakRec1, weakRec2]

/-! ## Claim C3 -/

/-- C3: the final score is the weighted blend
`0.35*tokenOverlap + 0.25*phraseScore + 0.20*termScore + 0.20*completeness`.
The source has no configuration parameter disabling weighted scoring:
lines 160-165 compute this blend unconditionally, so the blend holds for
every question and candidate. -/
theorem final_score_weighted_blend (question : String) (doc : Doc) :
    (scoreDoc question doc).score =
      0.35 * (scoreDoc question doc).token_overlap +
      0.25 * (scoreDoc question doc).phrase_score +
      0.20 * (scoreDoc question doc).term_score +
      0.20 * (scoreDoc question doc).completeness := by
  simp only [scoreDoc]
  ring

/-! ## Claim C4 -/

lemma matchRatio_nonneg (qs ds : Finset String) : 0 ≤ matchRatio qs ds := by
  unfold matchRatio
  split
  · exact le_refl 0
  · positivity

lemma matchRatio_le_one (qs ds : Finset String) : matchRatio qs ds ≤ 1 := by
  unfold matchRatio
  split
  · exact zero_le_one
  · next h =>
    have hpos : 0 < (qs.card : ℚ) := by
      exact_mod_cast Finset.card_pos.2 (Finset.nonempty_iff_ne_empty.2 h)
    rw [div_le_one hpos]
    exact_mod_cast Finset.card_le_card Finset.inter_subset_left

lemma termScoreOf_nonneg (question : String) (doc : Doc) : 0 ≤ termScoreOf question doc := by
  unfold termScoreOf
  split
  · exact le_refl 0
  · positivity

lemma termScoreOf_le_one (question : String) (doc : Doc) : termScoreOf question doc ≤ 1 := by
  unfold termScoreOf
  split
  · exact zero_le_one
  · next h =>
    have hpos : 0 < ((key_terms question).card : ℚ) := by
      exact_mod_cast Finset.card_pos.2 (Finset.nonempty_iff_ne_empty.2 h)
    rw [div_le_one hpos]
    exact_mod_cast Finset.card_filter_le (key_terms question) _

lemma completenessOf_nonneg (doc : Doc) : 0 ≤ completenessOf doc := by
  unfold completenessOf
  exact le_min (by positivity) zero_le_one

lemma completenessOf_le_one (doc : Doc) : completenessOf doc ≤ 1 := min_le_right _ _

/-- C4: every sub-score `tokenOverlap`, `phraseScore`, `termScore`,
`completeness` lies in `[0,1]`, and since the weights
`0.35 + 0.25 + 0.20 + 0.20` sum to exactly `1`, the weighted final score
lies in `[0,1]` as well. -/
theorem score_vector_in_unit_interval (question : String) (doc : Doc) :
    (0 ≤ (scoreDoc question doc).token_overlap ∧ (scoreDoc question doc).token_overlap ≤ 1) ∧
    (0 ≤ (scoreDoc question doc).phrase_score ∧ (scoreDoc question doc).phrase_score ≤ 1) ∧
    (0 ≤ (scoreDoc question doc).term_score ∧ (scoreDoc question doc).term_score ≤ 1) ∧
    (0 ≤ (scoreDoc question doc).completeness ∧ (scoreDoc question doc).completeness ≤ 1) ∧
    (0 ≤ (scoreDoc question doc).score ∧ (scoreDoc question doc).score ≤ 1) := by
  have hto0 : 0 ≤ tokenOverlapOf question doc := matchRatio_nonneg _ _
  have hto1 : tokenOverlapOf question doc ≤ 1 := matchRatio_le_one _ _
  have hbg0 : 0 ≤ bigramRatioOf question doc := matchRatio_nonneg _ _
  have hbg1 : bigramRatioOf question doc ≤ 1 := matchRatio_le_one _ _
  have htg0 : 0 ≤ trigramRatioOf question doc := matchRatio_nonneg _ _
  have htg1 : trigramRatioOf question doc ≤ 1 := matchRatio_le_one _ _
  have hps0 : 0 ≤ phraseScoreOf question doc := by unfold phraseScoreOf; linarith
  have hps1 : phraseScoreOf question doc ≤ 1 := by unfold phraseScoreOf; linarith
  have hts0 : 0 ≤ termScoreOf question doc := termScoreOf_nonneg question doc
  have hts1 : termScoreOf question doc ≤ 1 := termScoreOf_le_one question doc
  have hc0 : 0 ≤ completenessOf doc := completenessOf_nonneg doc
  have hc1 : completenessOf doc ≤ 1 := completenessOf_le_one doc
  simp only [scoreDoc]
  refine ⟨⟨hto0, hto1⟩, ⟨hps0, hps1⟩, ⟨hts0, hts1⟩, ⟨hc0, hc1⟩, ⟨?_, ?_⟩⟩
  · linarith
  · linarith

/-! ## Claim C5 -/

/-- C5: when retrieval returns no candidates, `answer_question` returns
exactly the literal refusal string of line 111 and makes no generation
call (the second component counts generation invocations). -/
theorem guardrail_empty_retrieval (gen : String → String) (question : String) :
    answer_question [] gen question =
      ("I can only answer questions about our company policies and procedures.", 0) :=
  rfl

/-! ## Claim C7 -/

/-- C7: an empty question-token set gives token overlap 0, an empty
key-term set gives term score 0, and empty question bigram/trigram sets
give match ratio 0; each case is an explicit guard in the source
(lines 142, 147, 148, 154), never a division by zero. -/
theorem empty_question_sets_give_zero (question : String) (doc : Doc) :
    (get_normalized_tokens question = ∅ → tokenOverlapOf question doc = 0) ∧
    (key_terms question = ∅ → termScoreOf question doc = 0) ∧
    (get_ngrams question 2 = ∅ → bigramRatioOf question doc = 0) ∧
    (get_ngrams question 3 = ∅ → trigramRatioOf question doc = 0) := by
  refine ⟨fun h => ?_, fun h => ?_, fun h => ?_, fun h => ?_⟩
  · simp [tokenOverlapOf, matchRatio, h]
  · simp [termScoreOf, h]
  · simp [bigramRatioOf, matchRatio, h]
  · simp [trigramRatioOf, matchRatio, h]

/-- Witness for C7 at the one-letter question `"a"`, whose token set,
key-term set, bigram set, and trigram set are all empty. -/
theorem empty_question_sets_give_zero_witness :
    tokenOverlapOf "a" ⟨"Policy text here.", some "p.md"⟩ = 0 ∧
    termScoreOf "a" ⟨"Policy text here.", some "p.md"⟩ = 0 ∧
    bigramRatioOf "a" ⟨"Policy text here.", some "p.md"⟩ = 0 ∧
    trigramRatioOf "a" ⟨"Policy text here.", some "p.md"⟩ = 0 :=
  ⟨(empty_question_sets_give_zero "a" ⟨"Policy text here.", some "p.md"⟩).1 (by decide),
    (empty_question_sets_give_zero "a" ⟨"Policy text here.", some "p.md"⟩).2.1 (by decide),
    (empty_question_sets_give_zero "a" ⟨"Policy text here.", some "p.md"⟩).2.2.1 (by decide),
    (empty_question_sets_give_zero "a" ⟨"Policy text here.", some "p.md"⟩).2.2.2 (by decide)⟩

/-! ## Claim C8 -/

lemma replaceChar_self (a : Char) (s : List Char) : replaceChar a a s = s := by
  induction s with
  | nil => rfl
  | cons c cs ih =>
    show (if c = a then a else c) :: replaceChar a a cs = c :: cs
    rw [ih]
    congr 1
    split
    · next h => exact h.symm
    · rfl

lemma comp_paren_eq (c : Char) :
    (if (if c = '(' then ' ' else c) = ')' then ' '
      else (if c = '(' then ' ' else c)) = parenToSpace c := by
  unfold parenToSpace
  by_cases h1 : c = '('
  · subst h1; decide
  · by_cases h2 : c = ')'
    · subst h2; decide
    · simp [h1, h2]

lemma replace_parens_eq_map (t : List Char) :
    replaceChar ')' ' ' (replaceChar '(' ' ' t) = t.map parenToSpace := by
  unfold replaceChar
  rw [List.map_map]
  congr 1
  funext c
  simp only [Function.comp]
  exact comp_paren_eq c

lemma isPySpace_parenToSpace (c : Char) : isPySpace (parenToSpace c) = isSeparator c := by
  unfold parenToSpace isSeparator
  by_cases h1 : c = '('
  · subst h1; decide
  · by_cases h2 : c = ')'
    · subst h2; decide
    · rw [if_neg h2, if_neg h1]
      have e1 : (c == '(') = false := beq_eq_false_iff_ne.2 h1
      have e2 : (c == ')') = false := beq_eq_false_iff_ne.2 h2
      rw [e1, e2]
      simp

lemma parenToSpace_eq_self {c : Char} (h : isSeparator c = false) : parenToSpace c = c := by
  unfold isSeparator at h
  simp only [Bool.or_eq_false_iff, beq_eq_false_iff_ne] at h
  unfold parenToSpace
  rw [if_neg h.2, if_neg h.1.2]

lemma splitWordsAux_paren (t : List Char) : ∀ acc : List Char,
    splitWordsAux isPySpace acc (t.map parenToSpace) = splitWordsAux isSeparator acc t := by
  induction t with
  | nil => intro acc; rfl
  | cons c cs ih =>
    intro acc
    show splitWordsAux isPySpace acc (parenToSpace c :: cs.map parenToSpace) =
      splitWordsAux isSeparator acc (c :: cs)
    simp only [splitWordsAux]
    rw [isPySpace_parenToSpace]
    cases h : isSeparator c with
    | true => simp [ih]
    | false =>
      rw [parenToSpace_eq_self h]
      simp [ih]

/-- C8 counterexample: the claim says quote variants are stripped, but the
source\x27s two quote replacements substitute the straight double quote for
itself, so quotes survive into tokens; on `the "refund" policy` the code
produces the token `"refund"` (with quotes) where the claim\x27s tokenizer
produces `refund`. -/
theorem tokenizer_claim_counterexample :
    get_normalized_tokens "the \x22refund\x22 policy" ≠
      claimTokenize "the \x22refund\x22 policy" := by
  decide

/-- C8 amended: the tokenizer lowercases, strips markdown bold markers,
splits on whitespace and parentheses, strips leading/trailing `.,;:?!`,
and discards empty, single-character, and all-digit tokens — but does not
strip quote characters (the source\x27s quote replacements are identity
operations), so quote characters remain inside tokens. -/
theorem tokenizer_keeps_quotes (text : String) :
    get_normalized_tokens text = amendedTokenize text := by
  unfold get_normalized_tokens amendedTokenize
  rw [replaceChar_self, replaceChar_self, replace_parens_eq_map]
  unfold splitWords
  rw [splitWordsAux_paren]

/-! ## Claim C9 -/

/-- C9: whenever retrieval returned at least one candidate, the answer is
the generated text followed by exactly the literal footer
`\n\n**Sources:** ` plus the chosen candidate\x27s source id, with the
sentinel `Unknown Source` substituted when the chosen candidate\x27s metadata
lacks a source id — never a fatal error. -/
theorem answer_citation_format (d : Doc) (ds : List Doc) (gen : String → String)
    (question : String) :
    ∃ best, select ((d :: ds).map (scoreDoc question)) = some best ∧
      (answer_question (d :: ds) gen question).1 =
        gen (build_prompt best.doc.page_content question) ++ CITATION_HEADER ++
          best.doc.source.getD UNKNOWN_SOURCE ∧
      (best.doc.source = none →
        (answer_question (d :: ds) gen question).1 =
          gen (build_prompt best.doc.page_content question) ++ CITATION_HEADER ++
            UNKNOWN_SOURCE) ∧
      CITATION_HEADER = "\n\n**Sources:** " := by
  obtain ⟨b, hb⟩ := select_cons_eq_some (scoreDoc question d) (ds.map (scoreDoc question))
  have hbmap : select ((d :: ds).map (scoreDoc question)) = some b := hb
  have hred : answer_question (d :: ds) gen question = (compose_answer b gen question, 1) := by
    show (match select ((d :: ds).map (scoreDoc question)) with
      | some best => (compose_answer best gen question, 1)
      | none => (REFUSAL, 0)) = (compose_answer b gen question, 1)
    rw [hbmap]
  refine ⟨b, hbmap, ?_, ?_, rfl⟩
  · rw [hred]
    rfl
  · intro h
    rw [hred]
    simp [compose_answer, h]

/-- Witness for C9: a single candidate whose metadata has no source id. -/
theorem answer_citation_format_witness :
    (answer_question [⟨"Short doc.", none⟩] (fun _ => "Generated answer.") "question words").1 =
      "Generated answer." ++ CITATION_HEADER ++ UNKNOWN_SOURCE := by
  obtain ⟨b, hb, h1, h2, h3⟩ :=
    answer_citation_format ⟨"Short doc.", none⟩ [] (fun _ => "Generated answer.") "question words"
  have hsel : select ([(⟨"Short doc.", none⟩ : Doc)].map (scoreDoc "question words")) =
      some (scoreDoc "question words" ⟨"Short doc.", none⟩) := rfl
  rw [hsel] at hb
  have hbv : b = scoreDoc "question words" ⟨"Short doc.", none⟩ := (Option.some.inj hb).symm
  subst hbv
  exact h2 rfl

/-! ## Claim C10 -/

/-- C10: `answer_question` accepts exactly the one parameter `question`,
so a call passing any of the documented configuration keyword arguments
(`use_mmr`, `use_ngrams`, `k`, `use_weighted_scoring`, as the ablation
driver passes them) raises `TypeError`; no recognized configuration option
can alter retrieval, scoring, or selection through this entry point. -/
theorem config_kwargs_raise_type_error (results : List Doc) (gen : String → String)
    (question : String) (kwargs : List String)
    (h : "use_mmr" ∈ kwargs ∨ "use_ngrams" ∈ kwargs ∨ "k" ∈ kwargs ∨
      "use_weighted_scoring" ∈ kwargs) :
    answer_question_call results gen question kwargs = PyCallResult.typeError := by
  have hne : kwargs ≠ [] := by
    rcases h with h | h | h | h <;> exact List.ne_nil_of_mem h
  cases kwargs with
  | nil => exact absurd rfl hne
  | cons a as => rfl

/-- Witness for C10: the ablation driver\x27s baseline configuration keys. -/
theorem config_kwargs_raise_type_error_witness :
    answer_question_call [] (fun _ => "") "What is the refund policy?"
      ["use_mmr", "use_ngrams", "k", "use_weighted_scoring"] = PyCallResult.typeError :=
  config_kwargs_raise_type_error [] (fun _ => "") "What is the refund policy?"
    ["use_mmr", "use_ngrams", "k", "use_weighted_scoring"] (Or.inl (by decide))

/-! ## Claim C6 -/

/-- C6 (code bug): the spec\x27s `useWeightedScoring=false` mode does not
exist in the source.  The ablation driver calls
`answer_question(q, use_weighted_scoring=False, ...)`, which raises
`TypeError` because `answer_question` has no such parameter, and the
scorer applies the weighted blend unconditionally: at question `"aa"` and
content `"aa"` the final score `0.352` differs from the raw token overlap
`1`, so no code path realizes `finalScore == tokenOverlap`. -/
theorem no_weighted_scoring_toggle :
    answer_question_call [⟨"aa", some "a.md"⟩] (fun _ => "answer") "aa"
      ["use_mmr", "use_ngrams", "k", "use_weighted_scoring"] = PyCallResult.typeError ∧
    (scoreDoc "aa" ⟨"aa", some "a.md"⟩).score ≠
      (scoreDoc "aa" ⟨"aa", some "a.md"⟩).token_overlap := by
  refine ⟨rfl, ?_⟩
  have h1 : get_normalized_tokens "aa" = {"aa"} := by decide
  have h2 : get_ngrams "aa" 2 = (∅ : Finset String) := by decide
  have h3 : get_ngrams "aa" 3 = (∅ : Finset String) := by decide
  have h4 : key_terms "aa" = (∅ : Finset String) := by decide
  have h5 : get_ngrams (String.mk (docContentLower ⟨"aa", some "a.md"⟩)) 2 =
      (∅ : Finset String) := by decide
  have h6 : get_ngrams (String.mk (docContentLower ⟨"aa", some "a.md"⟩)) 3 =
      (∅ : Finset String) := by decide
  have h7 : ((({"aa"} : Finset String)) ∩ {"aa"}).card = 1 := by decide
  have h8 : ({"aa"} : Finset String).card = 1 := by decide
  have h9 : ({"aa"} : Finset String) ≠ ∅ := by decide
  simp only [scoreDoc, tokenOverlapOf, phraseScoreOf, bigramRatioOf, trigramRatioOf,
    termScoreOf, completenessOf, matchRatio, h1, h2, h3, h4, h5, h6, h7, h8, h9,
    if_neg, if_pos, Nat.cast_one]
  norm_num [min_def]
